import Mathlib

set_option maxHeartbeats 1000000

/-!  Shallow embedding of the Diligent Engine Vulkan shader resource cache
     (Graphics/GraphicsEngineVulkan/src/ShaderResourceCacheVk.cpp):
     the cache store layout (`InitializeSets`, `InitializeResources`,
     the destructor) and the resource state transition pass
     (`TransitionResources`, templated over VerifyOnly).  -/

/-- Mirrors SPIRVShaderResourceAttribs::ResourceType: the nine classified
resource kinds handled by the transition switch, plus a sentinel value
standing for any enum value that reaches the default branch. -/
inductive ResourceType where
  | UniformBuffer
  | StorageBuffer
  | UniformTexelBuffer
  | StorageTexelBuffer
  | SeparateImage
  | SampledImage
  | StorageImage
  | AtomicCounter
  | SeparateSampler
  | NumResourceTypes
  deriving DecidableEq, Repr

/-- Vulkan constant VK_ACCESS_UNIFORM_READ_BIT. -/
def VK_ACCESS_UNIFORM_READ_BIT : Nat := 8

/-- Vulkan constant VK_ACCESS_SHADER_READ_BIT. -/
def VK_ACCESS_SHADER_READ_BIT : Nat := 32

/-- Vulkan constant VK_ACCESS_SHADER_WRITE_BIT. -/
def VK_ACCESS_SHADER_WRITE_BIT : Nat := 64

/-- Vulkan constant VK_IMAGE_LAYOUT_GENERAL. -/
def VK_IMAGE_LAYOUT_GENERAL : Nat := 1

/-- Vulkan constant VK_IMAGE_LAYOUT_SHADER_READ_ONLY_OPTIMAL. -/
def VK_IMAGE_LAYOUT_SHADER_READ_ONLY_OPTIMAL : Nat := 5

/-- Possible contents of Resource::pObject (a RefCntAutoPtr to an IDeviceObject):
empty, or a buffer (BufferVkImpl), a buffer view (BufferViewVkImpl, recording
the id of the BufferVkImpl returned by GetBuffer), or a texture view
(TextureViewVkImpl, recording the id of the TextureVkImpl returned by
GetTexture).  Buffers and textures are identified by numeric ids. -/
inductive BoundObject where
  | empty
  | buffer (bufferId : Nat)
  | bufferView (bufferId : Nat)
  | textureView (textureId : Nat)
  deriving DecidableEq, Repr

/-- Mirrors ShaderResourceCacheVk::Resource: an immutable type tag assigned at
construction and the bound object, empty by default. -/
structure Resource where
  ResType : ResourceType
  pObject : BoundObject := .empty
  deriving DecidableEq, Repr

/-- Current native state owned by the resource objects themselves: the access
flags stored on each BufferVkImpl (GetAccessFlags) and the layout stored on
each TextureVkImpl (GetLayout), indexed by resource id. -/
structure ResourceStates where
  bufferAccess : Nat → Nat
  textureLayout : Nat → Nat

/-- Result of Res.pObject.RawPtr of type BufferVkImpl followed by a dereference:
defined only when the slot actually holds a buffer. -/
def BoundObject.asBuffer : BoundObject → Option Nat
  | .buffer b => some b
  | _ => none

/-- Result of Res.pObject.RawPtr of type BufferViewVkImpl followed by
GetBuffer: the underlying buffer, defined only when the slot holds a
buffer view. -/
def BoundObject.asBufferView : BoundObject → Option Nat
  | .bufferView b => some b
  | _ => none

/-- Result of Res.pObject.RawPtr of type TextureViewVkImpl followed by
GetTexture: the underlying texture, defined only when the slot holds a
texture view. -/
def BoundObject.asTextureView : BoundObject → Option Nat
  | .textureView t => some t
  | _ => none

/-- Commands the apply pass records into the device context. -/
inductive Command where
  | bufferMemoryBarrierCmd (bufferId requiredAccess : Nat)
  | transitionImageLayoutCmd (textureId requiredLayout : Nat)
  deriving DecidableEq, Repr

/-- Diagnostics the verify pass logs (LOG_ERROR_MESSAGE naming the resource). -/
inductive Diagnostic where
  | bufferNotInCorrectState (bufferId : Nat)
  | textureNotInCorrectState (textureId : Nat)
  deriving DecidableEq, Repr

/-- Fatal conditions of the pass: a dereference of a null RawPtr (empty or
wrongly typed binding), and the default branch of the switch. -/
inductive TransitionError where
  | nullDereference
  | unexpectedResourceKind
  deriving DecidableEq, Repr

/-- Modelled from the spec: DeviceContextVkImpl::BufferMemoryBarrier is outside
the excerpted sources; per the spec the buffer object itself stores its current
access flags and a barrier request brings the buffer into the required state. -/
def ResourceStates.bufferBarrier (st : ResourceStates) (b req : Nat) : ResourceStates :=
  { st with bufferAccess := fun x => if x = b then req else st.bufferAccess x }

/-- Modelled from the spec: DeviceContextVkImpl::TransitionImageLayout is
outside the excerpted sources; per the spec the texture object stores its
current layout and a layout transition request brings it to the required
layout. -/
def ResourceStates.imageTransition (st : ResourceStates) (t lay : Nat) : ResourceStates :=
  { st with textureLayout := fun x => if x = t then lay else st.textureLayout x }

/-- Outcome of processing one slot: the possibly updated resource states, the
command recorded in apply mode, and the diagnostic logged in verify mode. -/
structure SlotResult where
  states : ResourceStates
  cmd : Option Command := none
  diag : Option Diagnostic := none

/-- One iteration of the loop body of ShaderResourceCacheVk::TransitionResources
(the switch on Res.Type, lines 101-172 of ShaderResourceCacheVk.cpp). -/
def slotStep (VerifyOnly : Bool) (st : ResourceStates) (Res : Resource) :
    Except TransitionError SlotResult :=
  match Res.ResType with
  | .UniformBuffer | .StorageBuffer =>
    match Res.pObject.asBuffer with
    | none => .error .nullDereference
    | some pBufferVk =>
      let RequiredAccessFlags :=
        if Res.ResType = .UniformBuffer then VK_ACCESS_UNIFORM_READ_BIT
        else VK_ACCESS_SHADER_READ_BIT ||| VK_ACCESS_SHADER_WRITE_BIT
      if st.bufferAccess pBufferVk ≠ RequiredAccessFlags then
        if VerifyOnly then
          .ok { states := st, diag := some (.bufferNotInCorrectState pBufferVk) }
        else
          .ok { states := st.bufferBarrier pBufferVk RequiredAccessFlags,
                cmd := some (.bufferMemoryBarrierCmd pBufferVk RequiredAccessFlags) }
      else .ok { states := st }
  | .UniformTexelBuffer | .StorageTexelBuffer =>
    match Res.pObject.asBufferView with
    | none => .error .nullDereference
    | some pBufferVk =>
      let RequiredAccessFlags :=
        if Res.ResType = .UniformTexelBuffer then VK_ACCESS_SHADER_READ_BIT
        else VK_ACCESS_SHADER_READ_BIT ||| VK_ACCESS_SHADER_WRITE_BIT
      if st.bufferAccess pBufferVk ≠ RequiredAccessFlags then
        if VerifyOnly then
          .ok { states := st, diag := some (.bufferNotInCorrectState pBufferVk) }
        else
          .ok { states := st.bufferBarrier pBufferVk RequiredAccessFlags,
                cmd := some (.bufferMemoryBarrierCmd pBufferVk RequiredAccessFlags) }
      else .ok { states := st }
  | .SeparateImage | .SampledImage | .StorageImage =>
    match Res.pObject.asTextureView with
    | none => .error .nullDereference
    | some pTextureVk =>
      let RequiredLayout :=
        if Res.ResType = .StorageImage then VK_IMAGE_LAYOUT_GENERAL
        else VK_IMAGE_LAYOUT_SHADER_READ_ONLY_OPTIMAL
      if st.textureLayout pTextureVk ≠ RequiredLayout then
        if VerifyOnly then
          .ok { states := st, diag := some (.textureNotInCorrectState pTextureVk) }
        else
          .ok { states := st.imageTransition pTextureVk RequiredLayout,
                cmd := some (.transitionImageLayoutCmd pTextureVk RequiredLayout) }
      else .ok { states := st }
  | .AtomicCounter => .ok { states := st }
  | .SeparateSampler => .ok { states := st }
  | .NumResourceTypes => .error .unexpectedResourceKind

/-- Result of a whole transition pass: final resource states, the commands
recorded in apply mode and the diagnostics logged in verify mode, each tagged
with the flat index of the slot that produced it. -/
structure PassResult where
  states : ResourceStates
  cmds : List (Nat × Command) := []
  diags : List (Nat × Diagnostic) := []

/-- The loop of TransitionResources over the flat slot array (lines 98-173),
carrying the current resource states and the flat slot index. -/
def transitionLoop (VerifyOnly : Bool) :
    ResourceStates → List Resource → Nat → Except TransitionError PassResult
  | st, [], _ => .ok { states := st }
  | st, Res :: rest, idx =>
    match slotStep VerifyOnly st Res with
    | .error e => .error e
    | .ok s =>
      match transitionLoop VerifyOnly s.states rest (idx + 1) with
      | .error e => .error e
      | .ok p =>
        .ok { states := p.states,
              cmds := (s.cmd.map fun c => (idx, c)).toList ++ p.cmds,
              diags := (s.diag.map fun d => (idx, d)).toList ++ p.diags }

/-- ShaderResourceCacheVk::TransitionResources, templated over VerifyOnly:
iterates every resource binding slot in flat storage order starting from the
given current native resource states. -/
def TransitionResources (VerifyOnly : Bool) (st : ResourceStates)
    (slots : List Resource) : Except TransitionError PassResult :=
  transitionLoop VerifyOnly st slots 0

/-- Failure mode of InitializeSets: the cache is already initialized (the
VERIFY at line 52, modelled per the spec as fatal, aborting the call). -/
inductive InitError where
  | AlreadyInitialized
  deriving DecidableEq, Repr

/-- Mirrors ShaderResourceCacheVk::DescriptorSet as constructed at line 66: a
slot count and the base of its slice of the flat slot array.  The pointer is
modelled as a flat index; none models the nullptr passed when the size is 0. -/
structure DescriptorSet where
  m_NumResources : Nat
  m_pResources : Option Nat
  deriving DecidableEq, Repr

/-- Mirrors the ShaderResourceCacheVk header state: allocator reference, the
allocated block (m_pMemory modelled as an allocated flag plus the in-block
set headers and the flat slot array), set count and total slot count.  A slot
holding none models raw memory on which no Resource has been placement
constructed yet. -/
structure ShaderResourceCacheVk where
  m_pAllocator : Option Nat := none
  m_pMemoryAllocated : Bool := false
  m_NumSets : Nat := 0
  m_TotalResources : Nat := 0
  sets : List DescriptorSet := []
  resources : List (Option Resource) := []

/-- A default constructed cache: all members at their initializers. -/
def emptyCache : ShaderResourceCacheVk := {}

/-- The accumulation loop at lines 56-57: m_TotalResources summed with foldl
in set order. -/
def totalOf (SetSizes : List Nat) : Nat :=
  SetSizes.foldl (fun a s => a + s) 0

/-- The set construction loop at lines 64-68: each DescriptorSet is given the
current cursor as base (nullptr when its size is 0) and the cursor advances by
the declared size. -/
def buildSets (off : Nat) : List Nat → List DescriptorSet
  | [] => []
  | s :: rest => ⟨s, if 0 < s then some off else none⟩ :: buildSets (off + s) rest

/-- MemorySize as computed at line 58, with the two sizeof values abstract. -/
def memorySize (sizeofSet sizeofRes NumSets Total : Nat) : Nat :=
  NumSets * sizeofSet + Total * sizeofRes

/-- Final value of the byte cursor pCurrResPtr of the construction loop: it
starts right after the set headers and advances by SetSizes[t] resources per
set; compared against memorySize by the VERIFY_EXPR at line 69. -/
def finalCursor (sizeofSet sizeofRes : Nat) (SetSizes : List Nat) : Nat :=
  SetSizes.foldl (fun cur s => cur + s * sizeofRes) (SetSizes.length * sizeofSet)

/-- ShaderResourceCacheVk::InitializeSets (lines 35-71).  The VERIFY at line 52
is modelled per the spec as fatal: the call aborts with AlreadyInitialized and
the cache is returned unchanged.  Otherwise one block is allocated when
MemorySize is positive, which with the positive C++ sizeof values happens
exactly when NumSets is positive, and the sets are constructed over slices of
the flat slot array; no slot is placement constructed yet. -/
def ShaderResourceCacheVk.InitializeSets (c : ShaderResourceCacheVk)
    (MemAllocator : Nat) (SetSizes : List Nat) :
    ShaderResourceCacheVk × Option InitError :=
  if c.m_pAllocator = none ∧ c.m_pMemoryAllocated = false then
    let Total := totalOf SetSizes
    if 0 < SetSizes.length then
      ({ m_pAllocator := some MemAllocator,
         m_pMemoryAllocated := true,
         m_NumSets := SetSizes.length,
         m_TotalResources := Total,
         sets := buildSets 0 SetSizes,
         resources := List.replicate Total none }, none)
    else
      ({ c with m_pAllocator := some MemAllocator,
                m_NumSets := SetSizes.length,
                m_TotalResources := Total }, none)
  else (c, some .AlreadyInitialized)

/-- The loop at lines 76-77: placement construct ArraySize slots of the given
type starting at flat index start, each write through List.set (out of range
writes are caller error and write nothing, matching the unchecked contract). -/
def writeRange (rs : List (Option Resource)) (start n : Nat) (ty : ResourceType) :
    List (Option Resource) :=
  match n with
  | 0 => rs
  | Nat.succ m => writeRange (rs.set start (some { ResType := ty })) (start + 1) m ty

/-- ShaderResourceCacheVk::InitializeResources (lines 73-78): placement
constructs Resource values of the given type over slots Offset to
Offset+ArraySize-1 of the chosen set, addressed through the base of that set. -/
def ShaderResourceCacheVk.InitializeResources (c : ShaderResourceCacheVk)
    (Set Offset ArraySize : Nat) (ty : ResourceType) : ShaderResourceCacheVk :=
  match (c.sets.getD Set ⟨0, none⟩).m_pResources with
  | none => c
  | some start =>
    { c with resources := writeRange c.resources (start + Offset) ArraySize ty }

/-- Modelled from the spec: the resource binding collaborator interface
setSlot(setIndex, slotIndex, resourceHandle), outside the excerpted sources,
replaces or clears the bound object of an already typed slot, leaving the
kind tag as assigned at slot construction. -/
def ShaderResourceCacheVk.setSlot (c : ShaderResourceCacheVk)
    (Set Slot : Nat) (obj : BoundObject) : ShaderResourceCacheVk :=
  match (c.sets.getD Set ⟨0, none⟩).m_pResources with
  | none => c
  | some start =>
    let updated := (c.resources.getD (start + Slot) none).map
      fun r => { r with pObject := obj }
    { c with resources := c.resources.set (start + Slot) updated }

/-- The kind tag currently stored at flat slot index j, when a Resource was
placement constructed there. -/
def kindAt (c : ShaderResourceCacheVk) (j : Nat) : Option ResourceType :=
  (c.resources.getD j none).map Resource.ResType

/-- A sequence of binding operations applied in order; each entry is
(setIndex, slotIndex, object). -/
def bindSeq (c : ShaderResourceCacheVk) (ops : List (Nat × Nat × BoundObject)) :
    ShaderResourceCacheVk :=
  ops.foldl (fun acc op => acc.setSlot op.1 op.2.1 op.2.2) c

/-- Events of the destructor, in the order they are performed. -/
inductive TeardownEvent where
  | destructResource (flatIndex : Nat)
  | destructSet (setIndex : Nat)
  | freeBlock (allocatorId : Nat)
  deriving DecidableEq, Repr

/-- The destructor ShaderResourceCacheVk::~ShaderResourceCacheVk (lines 80-92)
as the trace of what it performs: nothing when no block was allocated;
otherwise every slot destructed over the flat array with res from 0 up, then
every set header with t from 0 up, then the block freed through the stored
allocator. -/
def teardown (c : ShaderResourceCacheVk) : List TeardownEvent :=
  if c.m_pMemoryAllocated then
    (List.range c.m_TotalResources).map TeardownEvent.destructResource
      ++ (List.range c.m_NumSets).map TeardownEvent.destructSet
      ++ [TeardownEvent.freeBlock (c.m_pAllocator.getD 0)]
  else []

/-- Slots covered by a descriptor set, as flat indices: the base of its slice
through its slot count. -/
def setRange (d : DescriptorSet) : List Nat :=
  match d.m_pResources with
  | none => []
  | some start => (List.range d.m_NumResources).map fun i => start + i

/-- Flat index at which the slice of set t starts in the layout produced by
InitializeSets: the sum of the sizes of the sets before it. -/
def setStartOffset (SetSizes : List Nat) (t : Nat) : Nat :=
  (SetSizes.take t).sum

/-- True for the nine resource kinds the transition switch classifies. -/
def classified : ResourceType → Bool
  | .NumResourceTypes => false
  | _ => true

/-- The bound object has the variety the slot kind dereferences: a buffer for
the buffer kinds, a buffer view for the texel buffer kinds, a texture view for
the image kinds; the no-op kinds and unclassified kinds never dereference. -/
def boundOk (r : Resource) : Bool :=
  match r.ResType, r.pObject with
  | .UniformBuffer, .buffer _ => true
  | .StorageBuffer, .buffer _ => true
  | .UniformTexelBuffer, .bufferView _ => true
  | .StorageTexelBuffer, .bufferView _ => true
  | .SeparateImage, .textureView _ => true
  | .SampledImage, .textureView _ => true
  | .StorageImage, .textureView _ => true
  | .AtomicCounter, _ => true
  | .SeparateSampler, _ => true
  | .NumResourceTypes, _ => true
  | _, _ => false

/-- A slot the pass fully handles: classified kind with a binding of the
variety its branch dereferences. -/
def wellFormed (r : Resource) : Bool :=
  classified r.ResType && boundOk r

/-- The underlying resource a slot checks, with the native state its kind
requires: inl for a buffer checked against its access flags, inr for a texture
checked against its layout; none for the kinds with no state requirement or
for ill typed bindings. -/
def slotRequirement (r : Resource) : Option (Sum Nat Nat × Nat) :=
  match r.ResType, r.pObject with
  | .UniformBuffer, .buffer b => some (.inl b, VK_ACCESS_UNIFORM_READ_BIT)
  | .StorageBuffer, .buffer b =>
      some (.inl b, VK_ACCESS_SHADER_READ_BIT ||| VK_ACCESS_SHADER_WRITE_BIT)
  | .UniformTexelBuffer, .bufferView b => some (.inl b, VK_ACCESS_SHADER_READ_BIT)
  | .StorageTexelBuffer, .bufferView b =>
      some (.inl b, VK_ACCESS_SHADER_READ_BIT ||| VK_ACCESS_SHADER_WRITE_BIT)
  | .SeparateImage, .textureView t =>
      some (.inr t, VK_IMAGE_LAYOUT_SHADER_READ_ONLY_OPTIMAL)
  | .SampledImage, .textureView t =>
      some (.inr t, VK_IMAGE_LAYOUT_SHADER_READ_ONLY_OPTIMAL)
  | .StorageImage, .textureView t => some (.inr t, VK_IMAGE_LAYOUT_GENERAL)
  | _, _ => none

/-- The underlying resource a slot checks, forgetting the required value. -/
def slotKey (r : Resource) : Option (Sum Nat Nat) :=
  (slotRequirement r).map Prod.fst

/-- Current native state of one underlying resource. -/
def stateAt (st : ResourceStates) : Sum Nat Nat → Nat
  | .inl b => st.bufferAccess b
  | .inr t => st.textureLayout t

/-- State change a granted transition request performs on one underlying
resource. -/
def setStateAt (st : ResourceStates) : Sum Nat Nat × Nat → ResourceStates
  | (.inl b, v) => st.bufferBarrier b v
  | (.inr t, v) => st.imageTransition t v

/-- The command apply mode records for a mismatched slot over the given
underlying resource. -/
def mismatchCmd : Sum Nat Nat × Nat → Command
  | (.inl b, v) => .bufferMemoryBarrierCmd b v
  | (.inr t, v) => .transitionImageLayoutCmd t v

/-- The diagnostic verify mode logs for a mismatched slot over the given
underlying resource. -/
def mismatchDiag : Sum Nat Nat → Diagnostic
  | .inl b => .bufferNotInCorrectState b
  | .inr t => .textureNotInCorrectState t

/-- Whether processing one slot takes any action: logs a diagnostic or records
a command. -/
def slotActs (v : Bool) (st : ResourceStates) (r : Resource) : Bool :=
  match slotStep v st r with
  | .ok s => s.cmd.isSome || s.diag.isSome
  | .error _ => false

/-- Two slots place compatible requirements: when they check the same
underlying resource they require the same native state. -/
def reqCompatible (r₁ r₂ : Resource) : Bool :=
  match slotRequirement r₁, slotRequirement r₂ with
  | some (k₁, v₁), some (k₂, v₂) => decide (k₁ = k₂ → v₁ = v₂)
  | _, _ => true

/-- Resource states with every buffer at access flags 0 and every texture at
layout 0 (VK_IMAGE_LAYOUT_UNDEFINED). -/
def stZero : ResourceStates :=
  { bufferAccess := fun _ => 0, textureLayout := fun _ => 0 }

/-- Two slots binding the same buffer with the same required state. -/
def slotsSameBuffer : List Resource :=
  [{ ResType := .UniformBuffer, pObject := .buffer 0 },
   { ResType := .UniformBuffer, pObject := .buffer 0 }]

/-- Two slots binding the same buffer with conflicting required states. -/
def slotsConflicting : List Resource :=
  [{ ResType := .UniformBuffer, pObject := .buffer 0 },
   { ResType := .StorageBuffer, pObject := .buffer 0 }]

/-- Characterization of the slot switch on fully handled slots: it succeeds,
and its outcome is determined by comparing the current state of the underlying
resource against the state the slot kind requires. -/
theorem slotStep_char (v : Bool) (st : ResourceStates) (r : Resource)
    (h : wellFormed r = true) :
    slotStep v st r = .ok (
      match slotRequirement r with
      | none => { states := st }
      | some kv =>
        if stateAt st kv.1 = kv.2 then { states := st }
        else if v then { states := st, diag := some (mismatchDiag kv.1) }
        else { states := setStateAt st kv, cmd := some (mismatchCmd kv) }) := by
  obtain ⟨ty, obj⟩ := r
  cases ty <;> cases obj <;>
    simp [wellFormed, classified, boundOk] at h <;>
    cases v <;>
    simp [slotStep, slotRequirement, stateAt, setStateAt, mismatchCmd, mismatchDiag,
          BoundObject.asBuffer, BoundObject.asBufferView, BoundObject.asTextureView] <;>
    split <;> simp_all

/-- A fully handled slot never aborts the pass. -/
theorem slotStep_ok_of_wf (v : Bool) (st : ResourceStates) (r : Resource)
    (h : wellFormed r = true) : ∃ s, slotStep v st r = .ok s :=
  ⟨_, slotStep_char v st r h⟩

/-- In verify mode a successful slot step never changes the resource states
and never records a command. -/
theorem slotStep_verify (st : ResourceStates) (r : Resource) (s : SlotResult)
    (h : slotStep true st r = .ok s) : s.states = st ∧ s.cmd = none := by
  obtain ⟨ty, obj⟩ := r
  cases ty <;> cases obj <;>
    simp only [slotStep, BoundObject.asBuffer, BoundObject.asBufferView,
      BoundObject.asTextureView] at h <;>
    (try (split at h)) <;> (try (split at h)) <;>
    (try (cases h)) <;> simp_all

/-- A slot whose kind tag is unclassified reaches the default branch of the
switch and aborts with the unexpected resource kind condition. -/
theorem slotStep_unclassified (v : Bool) (st : ResourceStates) (r : Resource)
    (h : classified r.ResType = false) :
    slotStep v st r = .error .unexpectedResourceKind := by
  obtain ⟨ty, obj⟩ := r
  cases ty <;> simp_all [classified, slotStep]

/-- A pass over fully handled slots runs to completion. -/
theorem transitionLoop_ok (v : Bool) (slots : List Resource) :
    ∀ st idx, (∀ r ∈ slots, wellFormed r = true) →
    ∃ p, transitionLoop v st slots idx = .ok p := by
  induction slots with
  | nil => intro st idx _; exact ⟨_, rfl⟩
  | cons r rest ih =>
    intro st idx h
    obtain ⟨s, hs⟩ := slotStep_ok_of_wf v st r (h r (by simp))
    obtain ⟨p, hp⟩ := ih s.states (idx + 1) (fun x hx => h x (by simp [hx]))
    refine ⟨{ states := p.states,
              cmds := (s.cmd.map fun c => (idx, c)).toList ++ p.cmds,
              diags := (s.diag.map fun d => (idx, d)).toList ++ p.diags }, ?_⟩
    simp only [transitionLoop, hs, hp]

/-- A successful verify pass leaves the resource states untouched and records
no command. -/
theorem transitionLoop_verify (slots : List Resource) :
    ∀ st idx p, transitionLoop true st slots idx = .ok p →
    p.states = st ∧ p.cmds = [] := by
  induction slots with
  | nil =>
    intro st idx p h
    simp only [transitionLoop] at h
    cases h
    exact ⟨rfl, rfl⟩
  | cons r rest ih =>
    intro st idx p h
    simp only [transitionLoop] at h
    cases hs : slotStep true st r with
    | error e => simp [hs] at h
    | ok s =>
      simp only [hs] at h
      cases hq : transitionLoop true s.states rest (idx + 1) with
      | error e => simp [hq] at h
      | ok q =>
        simp only [hq] at h
        cases h
        obtain ⟨h1, h2⟩ := slotStep_verify st r s hs
        obtain ⟨h3, h4⟩ := ih s.states (idx + 1) q hq
        simp [h1, h2, h3, h4]

/-- Unfolding equation of the pass for a slot that steps successfully. -/
theorem transitionLoop_cons (v : Bool) (st : ResourceStates) (r : Resource)
    (rest : List Resource) (idx : Nat) (s : SlotResult)
    (hs : slotStep v st r = .ok s) (p : PassResult)
    (hp : transitionLoop v s.states rest (idx + 1) = .ok p) :
    transitionLoop v st (r :: rest) idx =
      .ok { states := p.states,
            cmds := (s.cmd.map fun c => (idx, c)).toList ++ p.cmds,
            diags := (s.diag.map fun d => (idx, d)).toList ++ p.diags } := by
  simp only [transitionLoop, hs, hp]

/-- Granting one transition request changes exactly the state of the requested
underlying resource. -/
theorem stateAt_setStateAt (st : ResourceStates) (kv : Sum Nat Nat × Nat)
    (k : Sum Nat Nat) :
    stateAt (setStateAt st kv) k = if k = kv.1 then kv.2 else stateAt st k := by
  obtain ⟨k0, v0⟩ := kv
  cases k0 <;> cases k <;>
    simp [stateAt, setStateAt, ResourceStates.bufferBarrier,
      ResourceStates.imageTransition]


/-- A slot with no state requirement steps without action. -/
theorem slotStep_req_none (v : Bool) (st : ResourceStates) (r : Resource)
    (hwf : wellFormed r = true) (hreq : slotRequirement r = none) :
    slotStep v st r = .ok { states := st } := by
  have h := slotStep_char v st r hwf
  rw [hreq] at h
  exact h

/-- A slot whose underlying resource is already in the required state steps
without action. -/
theorem slotStep_req_match (v : Bool) (st : ResourceStates) (r : Resource)
    (kv : Sum Nat Nat × Nat) (hwf : wellFormed r = true)
    (hreq : slotRequirement r = some kv) (hc : stateAt st kv.1 = kv.2) :
    slotStep v st r = .ok { states := st } := by
  have h := slotStep_char v st r hwf
  rw [hreq] at h
  simpa [hc] using h

/-- A mismatched slot in verify mode logs the diagnostic for its underlying
resource and changes nothing. -/
theorem slotStep_req_mismatch_verify (st : ResourceStates) (r : Resource)
    (kv : Sum Nat Nat × Nat) (hwf : wellFormed r = true)
    (hreq : slotRequirement r = some kv) (hc : ¬ stateAt st kv.1 = kv.2) :
    slotStep true st r = .ok { states := st, diag := some (mismatchDiag kv.1) } := by
  have h := slotStep_char true st r hwf
  rw [hreq] at h
  simpa [hc] using h

/-- A mismatched slot in apply mode records the transition request for its
underlying resource and brings that resource into the required state. -/
theorem slotStep_req_mismatch_apply (st : ResourceStates) (r : Resource)
    (kv : Sum Nat Nat × Nat) (hwf : wellFormed r = true)
    (hreq : slotRequirement r = some kv) (hc : ¬ stateAt st kv.1 = kv.2) :
    slotStep false st r = .ok { states := setStateAt st kv, cmd := some (mismatchCmd kv) } := by
  have h := slotStep_char false st r hwf
  rw [hreq] at h
  simpa [hc] using h

/-- Two apply passes over the same fully handled slots, started from resource
states that agree on every underlying resource the slots check, run to
completion and record exactly the same commands. -/
theorem transitionLoop_apply_congr (slots : List Resource) :
    ∀ st₁ st₂ idx,
    (∀ r ∈ slots, wellFormed r = true) →
    (∀ r ∈ slots, ∀ k, slotKey r = some k → stateAt st₁ k = stateAt st₂ k) →
    ∃ p₁ p₂, transitionLoop false st₁ slots idx = .ok p₁ ∧
             transitionLoop false st₂ slots idx = .ok p₂ ∧ p₁.cmds = p₂.cmds := by
  induction slots with
  | nil => intro st₁ st₂ idx _ _; exact ⟨_, _, rfl, rfl, rfl⟩
  | cons r rest ih =>
    intro st₁ st₂ idx hwf hag
    have hwfr := hwf r (by simp)
    have hwfrest : ∀ x ∈ rest, wellFormed x = true := fun x hx => hwf x (by simp [hx])
    cases hreq : slotRequirement r with
    | none =>
      obtain ⟨p₁, p₂, e₁, e₂, ec⟩ := ih st₁ st₂ (idx + 1) hwfrest
        (fun x hx k hk => hag x (by simp [hx]) k hk)
      exact ⟨_, _,
        transitionLoop_cons false st₁ r rest idx _
          (slotStep_req_none false st₁ r hwfr hreq) p₁ e₁,
        transitionLoop_cons false st₂ r rest idx _
          (slotStep_req_none false st₂ r hwfr hreq) p₂ e₂,
        by simp [ec]⟩
    | some kv =>
      have ha : stateAt st₁ kv.1 = stateAt st₂ kv.1 :=
        hag r (by simp) kv.1 (by simp [slotKey, hreq])
      by_cases hc : stateAt st₁ kv.1 = kv.2
      · obtain ⟨p₁, p₂, e₁, e₂, ec⟩ := ih st₁ st₂ (idx + 1) hwfrest
          (fun x hx k hk => hag x (by simp [hx]) k hk)
        exact ⟨_, _,
          transitionLoop_cons false st₁ r rest idx _
            (slotStep_req_match false st₁ r kv hwfr hreq hc) p₁ e₁,
          transitionLoop_cons false st₂ r rest idx _
            (slotStep_req_match false st₂ r kv hwfr hreq (ha ▸ hc)) p₂ e₂,
          by simp [ec]⟩
      · have hag2 : ∀ x ∈ rest, ∀ k, slotKey x = some k →
            stateAt (setStateAt st₁ kv) k = stateAt (setStateAt st₂ kv) k := by
          intro x hx k hk
          rw [stateAt_setStateAt, stateAt_setStateAt]
          by_cases hkk : k = kv.1
          · simp [hkk]
          · rw [if_neg hkk, if_neg hkk]
            exact hag x (by simp [hx]) k hk
        obtain ⟨p₁, p₂, e₁, e₂, ec⟩ :=
          ih (setStateAt st₁ kv) (setStateAt st₂ kv) (idx + 1) hwfrest hag2
        exact ⟨_, _,
          transitionLoop_cons false st₁ r rest idx _
            (slotStep_req_mismatch_apply st₁ r kv hwfr hreq hc) p₁ e₁,
          transitionLoop_cons false st₂ r rest idx _
            (slotStep_req_mismatch_apply st₂ r kv hwfr hreq (ha ▸ hc)) p₂ e₂,
          by simp [ec]⟩

/-- Verify and apply passes from the same start agree slot index by slot index
when no two slots check the same underlying resource: verify logs a diagnostic
at exactly the slot indices at which apply records a request. -/
theorem transitionLoop_verify_apply (slots : List Resource) :
    ∀ st idx,
    (∀ r ∈ slots, wellFormed r = true) →
    (slots.filterMap slotKey).Nodup →
    ∃ pv pa, transitionLoop true st slots idx = .ok pv ∧
             transitionLoop false st slots idx = .ok pa ∧
             pv.diags.map Prod.fst = pa.cmds.map Prod.fst := by
  induction slots with
  | nil => intro st idx _ _; exact ⟨_, _, rfl, rfl, rfl⟩
  | cons r rest ih =>
    intro st idx hwf hnd
    have hwfr := hwf r (by simp)
    have hwfrest : ∀ x ∈ rest, wellFormed x = true := fun x hx => hwf x (by simp [hx])
    cases hreq : slotRequirement r with
    | none =>
      have hk : slotKey r = none := by simp [slotKey, hreq]
      rw [List.filterMap_cons, hk] at hnd
      obtain ⟨pv, pa, ev, ea, em⟩ := ih st (idx + 1) hwfrest hnd
      exact ⟨_, _,
        transitionLoop_cons true st r rest idx _
          (slotStep_req_none true st r hwfr hreq) pv ev,
        transitionLoop_cons false st r rest idx _
          (slotStep_req_none false st r hwfr hreq) pa ea,
        by simp [em]⟩
    | some kv =>
      have hk : slotKey r = some kv.1 := by simp [slotKey, hreq]
      rw [List.filterMap_cons, hk] at hnd
      have hnotin : kv.1 ∉ rest.filterMap slotKey := (List.nodup_cons.mp hnd).1
      have hndrest : (rest.filterMap slotKey).Nodup := (List.nodup_cons.mp hnd).2
      by_cases hc : stateAt st kv.1 = kv.2
      · obtain ⟨pv, pa, ev, ea, em⟩ := ih st (idx + 1) hwfrest hndrest
        exact ⟨_, _,
          transitionLoop_cons true st r rest idx _
            (slotStep_req_match true st r kv hwfr hreq hc) pv ev,
          transitionLoop_cons false st r rest idx _
            (slotStep_req_match false st r kv hwfr hreq hc) pa ea,
          by simp [em]⟩
      · obtain ⟨pv, pa, ev, ea, em⟩ := ih st (idx + 1) hwfrest hndrest
        have hag : ∀ x ∈ rest, ∀ k, slotKey x = some k →
            stateAt (setStateAt st kv) k = stateAt st k := by
          intro x hx k hkx
          rw [stateAt_setStateAt]
          have : k ≠ kv.1 := by
            intro hcon
            exact hnotin (hcon ▸ List.mem_filterMap.mpr ⟨x, hx, hkx⟩)
          rw [if_neg this]
        obtain ⟨q₁, q₂, f₁, f₂, fc⟩ :=
          transitionLoop_apply_congr rest (setStateAt st kv) st (idx + 1) hwfrest hag
        have hq₂ : q₂ = pa := by
          rw [ea] at f₂
          cases f₂
          rfl
        exact ⟨_, _,
          transitionLoop_cons true st r rest idx _
            (slotStep_req_mismatch_verify st r kv hwfr hreq hc) pv ev,
          transitionLoop_cons false st r rest idx _
            (slotStep_req_mismatch_apply st r kv hwfr hreq hc) q₁ f₁,
          by simp [em, fc, hq₂]⟩

/-- An apply pass never disturbs the state of an underlying resource that every
slot checking it requires at its current value. -/
theorem transitionLoop_preserve (slots : List Resource) :
    ∀ st idx (k : Sum Nat Nat) (val : Nat),
    (∀ r ∈ slots, wellFormed r = true) →
    (∀ r ∈ slots, ∀ kv, slotRequirement r = some kv → kv.1 = k → kv.2 = val) →
    stateAt st k = val →
    ∀ p, transitionLoop false st slots idx = .ok p → stateAt p.states k = val := by
  induction slots with
  | nil =>
    intro st idx k val _ _ hst p hp
    simp only [transitionLoop] at hp
    cases hp
    exact hst
  | cons r rest ih =>
    intro st idx k val hwf hreqv hst p hp
    have hwfr := hwf r (by simp)
    have hwfrest : ∀ x ∈ rest, wellFormed x = true := fun x hx => hwf x (by simp [hx])
    have hreqvrest : ∀ x ∈ rest, ∀ kv, slotRequirement x = some kv → kv.1 = k → kv.2 = val :=
      fun x hx => hreqv x (by simp [hx])
    cases hreq : slotRequirement r with
    | none =>
      simp only [transitionLoop, slotStep_req_none false st r hwfr hreq] at hp
      cases hq : transitionLoop false st rest (idx + 1) with
      | error e => rw [hq] at hp; simp at hp
      | ok q =>
        simp only [hq] at hp
        cases hp
        exact ih st (idx + 1) k val hwfrest hreqvrest hst q hq
    | some kv =>
      by_cases hc : stateAt st kv.1 = kv.2
      · simp only [transitionLoop, slotStep_req_match false st r kv hwfr hreq hc] at hp
        cases hq : transitionLoop false st rest (idx + 1) with
        | error e => rw [hq] at hp; simp at hp
        | ok q =>
          simp only [hq] at hp
          cases hp
          exact ih st (idx + 1) k val hwfrest hreqvrest hst q hq
      · simp only [transitionLoop, slotStep_req_mismatch_apply st r kv hwfr hreq hc] at hp
        cases hq : transitionLoop false (setStateAt st kv) rest (idx + 1) with
        | error e => rw [hq] at hp; simp at hp
        | ok q =>
          simp only [hq] at hp
          cases hp
          have hst2 : stateAt (setStateAt st kv) k = val := by
            rw [stateAt_setStateAt]
            by_cases hkk : k = kv.1
            · rw [if_pos hkk]
              exact hreqv r (by simp) kv hreq hkk.symm
            · rw [if_neg hkk]
              exact hst
          exact ih (setStateAt st kv) (idx + 1) k val hwfrest hreqvrest hst2 q hq

/-- After a successful apply pass over slots with mutually compatible
requirements, every underlying resource a slot checks is in the state that
slot requires. -/
theorem transitionLoop_satisfies (slots : List Resource) :
    ∀ st idx,
    (∀ r ∈ slots, wellFormed r = true) →
    (∀ r₁ ∈ slots, ∀ r₂ ∈ slots, reqCompatible r₁ r₂ = true) →
    ∀ p, transitionLoop false st slots idx = .ok p →
    ∀ r ∈ slots, ∀ kv, slotRequirement r = some kv → stateAt p.states kv.1 = kv.2 := by
  induction slots with
  | nil => intro st idx _ _ p _ r hr; cases hr
  | cons r0 rest ih =>
    intro st idx hwf hcomp p hp r hr kv hkv
    have hwfr := hwf r0 (by simp)
    have hwfrest : ∀ x ∈ rest, wellFormed x = true := fun x hx => hwf x (by simp [hx])
    have hcomprest : ∀ x ∈ rest, ∀ y ∈ rest, reqCompatible x y = true :=
      fun x hx y hy => hcomp x (by simp [hx]) y (by simp [hy])
    cases hreq : slotRequirement r0 with
    | none =>
      simp only [transitionLoop, slotStep_req_none false st r0 hwfr hreq] at hp
      cases hq : transitionLoop false st rest (idx + 1) with
      | error e => rw [hq] at hp; simp at hp
      | ok q =>
        simp only [hq] at hp
        cases hp
        rcases List.mem_cons.mp hr with rfl | hr2
        · rw [hkv] at hreq; cases hreq
        · exact ih st (idx + 1) hwfrest hcomprest q hq r hr2 kv hkv
    | some kv0 =>
      have hafter : ∀ st2, stateAt st2 kv0.1 = kv0.2 →
          ∀ q, transitionLoop false st2 rest (idx + 1) = .ok q →
          stateAt q.states kv0.1 = kv0.2 := by
        intro st2 hst2 q hq
        refine transitionLoop_preserve rest st2 (idx + 1) kv0.1 kv0.2 hwfrest ?_ hst2 q hq
        intro x hx kvx hkvx hk1
        have hcx := hcomp r0 (by simp) x (by simp [hx])
        rw [reqCompatible, hreq, hkvx] at hcx
        obtain ⟨a0, b0⟩ := kv0
        obtain ⟨a1, b1⟩ := kvx
        simp only [decide_eq_true_eq] at hcx
        exact (hcx (hk1.symm)).symm
      by_cases hc : stateAt st kv0.1 = kv0.2
      · simp only [transitionLoop, slotStep_req_match false st r0 kv0 hwfr hreq hc] at hp
        cases hq : transitionLoop false st rest (idx + 1) with
        | error e => rw [hq] at hp; simp at hp
        | ok q =>
          simp only [hq] at hp
          cases hp
          rcases List.mem_cons.mp hr with rfl | hr2
          · rw [hkv] at hreq
            cases hreq
            exact hafter st hc q hq
          · exact ih st (idx + 1) hwfrest hcomprest q hq r hr2 kv hkv
      · simp only [transitionLoop, slotStep_req_mismatch_apply st r0 kv0 hwfr hreq hc] at hp
        cases hq : transitionLoop false (setStateAt st kv0) rest (idx + 1) with
        | error e => rw [hq] at hp; simp at hp
        | ok q =>
          simp only [hq] at hp
          cases hp
          have hset : stateAt (setStateAt st kv0) kv0.1 = kv0.2 := by
            rw [stateAt_setStateAt, if_pos rfl]
          rcases List.mem_cons.mp hr with rfl | hr2
          · rw [hkv] at hreq
            cases hreq
            exact hafter (setStateAt st kv) hset q hq
          · exact ih (setStateAt st kv0) (idx + 1) hwfrest hcomprest q hq r hr2 kv hkv

/-- An apply pass over fully handled slots whose requirements are all already
satisfied makes no state change and records nothing. -/
theorem transitionLoop_noActions (slots : List Resource) :
    ∀ st idx,
    (∀ r ∈ slots, wellFormed r = true) →
    (∀ r ∈ slots, ∀ kv, slotRequirement r = some kv → stateAt st kv.1 = kv.2) →
    transitionLoop false st slots idx = .ok { states := st } := by
  induction slots with
  | nil => intro st idx _ _; rfl
  | cons r rest ih =>
    intro st idx hwf hsat
    have hwfr := hwf r (by simp)
    have hrec := ih st (idx + 1) (fun x hx => hwf x (by simp [hx]))
      (fun x hx => hsat x (by simp [hx]))
    cases hreq : slotRequirement r with
    | none =>
      simp [transitionLoop, slotStep_req_none false st r hwfr hreq, hrec]
    | some kv =>
      simp [transitionLoop,
        slotStep_req_match false st r kv hwfr hreq (hsat r (by simp) kv hreq), hrec]

/-- A pass over slots whose bindings match their kinds but one of which has an
unclassified kind tag aborts with the unexpected resource kind condition. -/
theorem transitionLoop_unexpected (slots : List Resource) :
    ∀ v st idx,
    (∀ r ∈ slots, boundOk r = true) →
    (∃ r, r ∈ slots ∧ classified r.ResType = false) →
    transitionLoop v st slots idx = .error .unexpectedResourceKind := by
  induction slots with
  | nil => rintro v st idx _ ⟨r, hr, _⟩; cases hr
  | cons r0 rest ih =>
    rintro v st idx hb ⟨x, hx, hxc⟩
    cases hcl : classified r0.ResType with
    | false =>
      simp [transitionLoop, slotStep_unclassified v st r0 hcl]
    | true =>
      have hwfr : wellFormed r0 = true := by
        rw [wellFormed, hcl, hb r0 (by simp)]
        rfl
      obtain ⟨s, hs⟩ := slotStep_ok_of_wf v st r0 hwfr
      have hx2 : x ∈ rest := by
        rcases List.mem_cons.mp hx with rfl | hx2
        · rw [hcl] at hxc; cases hxc
        · exact hx2
      simp [transitionLoop, hs,
        ih v s.states (idx + 1) (fun y hy => hb y (by simp [hy])) ⟨x, hx2, hxc⟩]

/-- Folding addition from any accumulator computes the accumulator plus the
list sum. -/
theorem foldl_add_eq (S : List Nat) : ∀ a : Nat, S.foldl (fun x y => x + y) a = a + S.sum := by
  induction S with
  | nil => intro a; simp
  | cons s rest ih => intro a; simp [ih, Nat.add_assoc]

/-- The total slot count loop computes the sum of the declared set sizes. -/
theorem totalOf_eq_sum (S : List Nat) : totalOf S = S.sum := by
  simpa using foldl_add_eq S 0

/-- Folding the cursor advance from any start adds the summed byte sizes. -/
theorem foldl_cursor_eq (szRes : Nat) (S : List Nat) :
    ∀ a : Nat, S.foldl (fun cur s => cur + s * szRes) a = a + S.sum * szRes := by
  induction S with
  | nil => intro a; simp
  | cons s rest ih => intro a; simp [ih, Nat.add_mul, Nat.add_assoc]

/-- The checked layout invariant of InitializeSets: the construction cursor
ends exactly at the end of the allocated block, whatever the two element byte
sizes are. -/
theorem finalCursor_eq_memorySize (sizeofSet sizeofRes : Nat) (S : List Nat) :
    finalCursor sizeofSet sizeofRes S = memorySize sizeofSet sizeofRes S.length S.sum := by
  simp [finalCursor, memorySize, foldl_cursor_eq]

/-- The set construction loop builds one header per declared size. -/
theorem buildSets_length (S : List Nat) : ∀ off, (buildSets off S).length = S.length := by
  induction S with
  | nil => intro off; rfl
  | cons s rest ih => intro off; simp [buildSets, ih]

/-- Header t built by the construction loop: its slot count is the declared
size and its base is the start offset plus the sizes of the sets before it. -/
theorem buildSets_getD (S : List Nat) :
    ∀ off t, t < S.length →
    (buildSets off S).getD t ⟨0, none⟩ =
      ⟨S.getD t 0, if 0 < S.getD t 0 then some (off + (S.take t).sum) else none⟩ := by
  induction S with
  | nil => intro off t ht; cases ht
  | cons s rest ih =>
    intro off t ht
    cases t with
    | zero => simp [buildSets]
    | succ t2 =>
      have h2 := ih (off + s) t2 (by simpa using ht)
      rw [buildSets, List.getD_cons_succ, h2, List.take_succ_cons, List.sum_cons,
        Nat.add_assoc]
      simp [List.getD_cons_succ]

/-- The slot slices of the headers built by the construction loop tile the
index interval of the summed sizes, in order and without gap or overlap. -/
theorem buildSets_cover (S : List Nat) :
    ∀ off, ((buildSets off S).map setRange).flatten =
      (List.range S.sum).map fun i => off + i := by
  induction S with
  | nil => intro off; simp [buildSets]
  | cons s rest ih =>
    intro off
    have hhead : setRange ⟨s, if 0 < s then some off else none⟩ =
        (List.range s).map fun i => off + i := by
      by_cases hs : 0 < s
      · simp [setRange, hs]
      · have hz : s = 0 := by omega
        simp [setRange, hs, hz]
    simp [buildSets, hhead, ih (off + s), List.range_add, Nat.add_assoc]

/-- The size of a prefix of sets together with the next declared size never
exceeds the total. -/
theorem take_sum_getD_le (S : List Nat) : ∀ t, t < S.length →
    (S.take t).sum + S.getD t 0 ≤ S.sum := by
  induction S with
  | nil => intro t ht; cases ht
  | cons s rest ih =>
    intro t ht
    cases t with
    | zero => simp
    | succ t2 =>
      have h2 := ih t2 (by simpa using ht)
      simp only [List.take_succ_cons, List.sum_cons, List.getD_cons_succ]
      omega

/-- An element update at one index, described through getD: the new value is
seen exactly at that index when it is in range. -/
theorem getD_set_describe {α : Type} (l : List α) (i j : Nat) (a : α) (d : α) :
    (l.set i a).getD j d = if i = j ∧ i < l.length then a else l.getD j d := by
  rw [List.getD_eq_getElem?_getD, List.getD_eq_getElem?_getD, List.getElem?_set]
  by_cases hij : i = j
  · subst hij
    by_cases hl : i < l.length
    · simp [hl]
    · simp [hl, List.getElem?_eq_none (by omega : l.length ≤ i)]
  · simp [hij]

/-- The placement construction loop preserves the length of the slot array. -/
theorem writeRange_length (ty : ResourceType) :
    ∀ n rs start, (writeRange rs start n ty).length = rs.length := by
  intro n
  induction n with
  | zero => intro rs start; rfl
  | succ m ih => intro rs start; simp only [writeRange, ih, List.length_set]

/-- Indices outside the written range are untouched by the placement
construction loop. -/
theorem writeRange_getD_out (ty : ResourceType) :
    ∀ n rs start j, (j < start ∨ start + n ≤ j) →
    (writeRange rs start n ty).getD j none = rs.getD j none := by
  intro n
  induction n with
  | zero => intro rs start j _; rfl
  | succ m ih =>
    intro rs start j hj
    simp only [writeRange]
    rw [ih (rs.set start (some { ResType := ty })) (start + 1) j (by omega)]
    rw [getD_set_describe]
    have : ¬ (start = j ∧ start < rs.length) := by
      intro hcon
      omega
    rw [if_neg this]

/-- Every index inside the written range holds the freshly constructed slot
after the placement construction loop. -/
theorem writeRange_getD_in (ty : ResourceType) :
    ∀ n rs start j, start ≤ j → j < start + n → j < rs.length →
    (writeRange rs start n ty).getD j none = some { ResType := ty, pObject := .empty } := by
  intro n
  induction n with
  | zero => intro rs start j h1 h2 _; omega
  | succ m ih =>
    intro rs start j h1 h2 h3
    simp only [writeRange]
    by_cases hj : j = start
    · subst hj
      rw [writeRange_getD_out ty m (rs.set j (some { ResType := ty })) (j + 1) j (by omega)]
      rw [getD_set_describe, if_pos ⟨rfl, h3⟩]
    · exact ih (rs.set start (some { ResType := ty })) (start + 1) j (by omega) (by omega)
        (by simp [List.length_set]; omega)

/-- Replacing or clearing the bound object of a slot never changes the kind
tag stored at any flat index. -/
theorem setSlot_kindAt (c : ShaderResourceCacheVk) (a b : Nat) (o : BoundObject) (j : Nat) :
    kindAt (c.setSlot a b o) j = kindAt c j := by
  rw [ShaderResourceCacheVk.setSlot]
  cases h : (c.sets.getD a ⟨0, none⟩).m_pResources with
  | none => rfl
  | some start =>
    simp only [kindAt]
    rw [getD_set_describe]
    by_cases hin : start + b = j ∧ start + b < c.resources.length
    · rw [if_pos hin]
      rw [← hin.1]
      cases c.resources.getD (start + b) none with
      | none => rfl
      | some r => rfl
    · rw [if_neg hin]

/-- No sequence of binding operations changes the kind tag stored at any flat
index. -/
theorem bindSeq_kindAt (ops : List (Nat × Nat × BoundObject)) :
    ∀ c j, kindAt (bindSeq c ops) j = kindAt c j := by
  induction ops with
  | nil => intro c j; rfl
  | cons op rest ih =>
    intro c j
    rw [bindSeq, List.foldl_cons]
    have := ih (c.setSlot op.1 op.2.1 op.2.2) j
    rw [bindSeq] at this
    rw [this, setSlot_kindAt]

/-- Unfolding of InitializeSets on a fresh cache with at least one set. -/
theorem InitializeSets_fresh (a : Nat) (S : List Nat) (h : 0 < S.length) :
    ShaderResourceCacheVk.InitializeSets emptyCache a S =
      ({ m_pAllocator := some a, m_pMemoryAllocated := true, m_NumSets := S.length,
         m_TotalResources := totalOf S, sets := buildSets 0 S,
         resources := List.replicate (totalOf S) none }, none) := by
  simp [ShaderResourceCacheVk.InitializeSets, emptyCache, h]

/-- Unfolding of InitializeSets on a fresh cache with no sets: nothing is
allocated, only the allocator reference and the zero counts are recorded. -/
theorem InitializeSets_fresh_nil (a : Nat) :
    ShaderResourceCacheVk.InitializeSets emptyCache a [] =
      ({ m_pAllocator := some a, m_pMemoryAllocated := false, m_NumSets := 0,
         m_TotalResources := 0, sets := [], resources := [] }, none) := by
  simp [ShaderResourceCacheVk.InitializeSets, emptyCache, totalOf]

/-- C3: after InitializeSets on a fresh store the recorded totals equal the
sum and count of the declared sizes, the flat slot array has exactly one raw
slot per declared slot, every header covers exactly its declared contiguous
slice starting at the sum of the preceding sizes, the slices tile the whole
index interval exactly once, and the construction cursor ends exactly at the
size of the allocated block for any element byte sizes (the checked
invariant). -/
theorem c3_layout_invariants (MemAllocator : Nat) (S : List Nat) :
    ((ShaderResourceCacheVk.InitializeSets emptyCache MemAllocator S).2 = none) ∧
    ((ShaderResourceCacheVk.InitializeSets emptyCache MemAllocator S).1.m_TotalResources
      = S.sum) ∧
    ((ShaderResourceCacheVk.InitializeSets emptyCache MemAllocator S).1.m_NumSets
      = S.length) ∧
    ((ShaderResourceCacheVk.InitializeSets emptyCache MemAllocator S).1.resources.length
      = S.sum) ∧
    (∀ t, t < S.length →
      (((ShaderResourceCacheVk.InitializeSets emptyCache MemAllocator S).1.sets.getD t
          ⟨0, none⟩).m_NumResources = S.getD t 0 ∧
       setRange ((ShaderResourceCacheVk.InitializeSets emptyCache MemAllocator S).1.sets.getD t
          ⟨0, none⟩) = (List.range (S.getD t 0)).map fun i => setStartOffset S t + i)) ∧
    ((((ShaderResourceCacheVk.InitializeSets emptyCache MemAllocator S).1.sets).map
        setRange).flatten = List.range S.sum) ∧
    (∀ sizeofSet sizeofRes, finalCursor sizeofSet sizeofRes S =
      memorySize sizeofSet sizeofRes S.length S.sum) := by
  by_cases hS : 0 < S.length
  · rw [InitializeSets_fresh MemAllocator S hS]
    refine ⟨rfl, totalOf_eq_sum S, rfl, by simp [totalOf_eq_sum], ?_, ?_, ?_⟩
    · intro t ht
      rw [buildSets_getD S 0 t ht]
      constructor
      · rfl
      · by_cases hz : 0 < S.getD t 0
        · rw [if_pos hz]
          simp [setRange, setStartOffset]
        · have h0 : S.getD t 0 = 0 := by omega
          rw [if_neg hz, h0]
          simp [setRange]
    · rw [buildSets_cover S 0]
      simp
    · exact fun a b => finalCursor_eq_memorySize a b S
  · have hnil : S = [] := by
      cases S with
      | nil => rfl
      | cons x xs => simp at hS
    subst hnil
    rw [InitializeSets_fresh_nil MemAllocator]
    refine ⟨rfl, rfl, rfl, rfl, ?_, rfl, ?_⟩
    · intro t ht; cases ht
    · exact fun a b => finalCursor_eq_memorySize a b []

/-- C5: a second InitializeSets on an already initialized store aborts with
AlreadyInitialized and returns the layout of the first call untouched. -/
theorem c5_second_initialize_fails (a₁ a₂ : Nat) (S₁ S₂ : List Nat) :
    ShaderResourceCacheVk.InitializeSets
        (ShaderResourceCacheVk.InitializeSets emptyCache a₁ S₁).1 a₂ S₂ =
      ((ShaderResourceCacheVk.InitializeSets emptyCache a₁ S₁).1,
       some InitError.AlreadyInitialized) := by
  by_cases h : 0 < S₁.length
  · rw [InitializeSets_fresh a₁ S₁ h]
    simp [ShaderResourceCacheVk.InitializeSets]
  · have hnil : S₁ = [] := by
      cases S₁ with
      | nil => rfl
      | cons x xs => simp at h
    subst hnil
    rw [InitializeSets_fresh_nil a₁]
    simp [ShaderResourceCacheVk.InitializeSets]

/-- C6 counterexample: for a store with two sets the destructor destructs set
header 0 before set header 1, which is construction order, not the reverse
order the claim states. -/
theorem c6_counterexample_forward_order :
    teardown (ShaderResourceCacheVk.InitializeSets emptyCache 7 [1, 1]).1 =
      [TeardownEvent.destructResource 0, TeardownEvent.destructResource 1,
       TeardownEvent.destructSet 0, TeardownEvent.destructSet 1,
       TeardownEvent.freeBlock 7] ∧
    teardown (ShaderResourceCacheVk.InitializeSets emptyCache 7 [1, 1]).1 ≠
      [TeardownEvent.destructResource 0, TeardownEvent.destructResource 1,
       TeardownEvent.destructSet 1, TeardownEvent.destructSet 0,
       TeardownEvent.freeBlock 7] := by
  constructor <;> decide

/-- C6 (amended): the destructor of an initialized store destructs every slot
over the flat array in forward order, then every set header in forward
(construction) order, then frees the block through the stored allocator; it is
a no-op when nothing was initialized. -/
theorem c6_amended_teardown_trace (a : Nat) (S : List Nat) :
    teardown (ShaderResourceCacheVk.InitializeSets emptyCache a S).1 =
      (if 0 < S.length then
        (List.range S.sum).map TeardownEvent.destructResource
          ++ (List.range S.length).map TeardownEvent.destructSet
          ++ [TeardownEvent.freeBlock a]
       else []) ∧
    teardown emptyCache = [] := by
  constructor
  · by_cases h : 0 < S.length
    · rw [InitializeSets_fresh a S h, if_pos h]
      simp [teardown, totalOf_eq_sum]
    · have hnil : S = [] := by
        cases S with
        | nil => rfl
        | cons x xs => simp at h
      subst hnil
      rw [InitializeSets_fresh_nil a]
      simp [teardown]
  · rfl

/-- C7: after InitializeResources every slot of the written range of the
chosen set holds the given kind with an empty binding, and the kind tag of
every slot is invariant under any later sequence of binding operations. -/
theorem c7_kinds_assigned_and_immutable (a SetIdx Offset Cnt : Nat) (S : List Nat)
    (ty : ResourceType) (hset : SetIdx < S.length)
    (hrange : Offset + Cnt ≤ S.getD SetIdx 0) :
    (∀ i, i < Cnt →
      ((ShaderResourceCacheVk.InitializeSets emptyCache a S).1.InitializeResources
          SetIdx Offset Cnt ty).resources.getD (setStartOffset S SetIdx + Offset + i) none =
        some { ResType := ty, pObject := .empty }) ∧
    (∀ ops j,
      kindAt (bindSeq
        ((ShaderResourceCacheVk.InitializeSets emptyCache a S).1.InitializeResources
          SetIdx Offset Cnt ty) ops) j =
      kindAt ((ShaderResourceCacheVk.InitializeSets emptyCache a S).1.InitializeResources
          SetIdx Offset Cnt ty) j) := by
  constructor
  · intro i hi
    have hS : 0 < S.length := by omega
    have hsize : 0 < S.getD SetIdx 0 := by omega
    have hsum := take_sum_getD_le S SetIdx hset
    rw [InitializeSets_fresh a S hS]
    rw [ShaderResourceCacheVk.InitializeResources]
    simp only []
    rw [buildSets_getD S 0 SetIdx hset]
    simp only [if_pos hsize, Nat.zero_add]
    rw [writeRange_getD_in ty Cnt (List.replicate (totalOf S) none)
      ((List.take SetIdx S).sum + Offset) (setStartOffset S SetIdx + Offset + i)
      (by simp only [setStartOffset]; omega) (by simp only [setStartOffset]; omega)
      (by simp only [List.length_replicate, totalOf_eq_sum, setStartOffset]; omega)]
  · intro ops j
    exact bindSeq_kindAt ops _ j

/-- A slot with a state requirement acts, in either mode, exactly when its
underlying resource is not in the required state. -/
theorem slotActs_req (v : Bool) (st : ResourceStates) (r : Resource)
    (kv : Sum Nat Nat × Nat) (hwf : wellFormed r = true)
    (hreq : slotRequirement r = some kv) :
    slotActs v st r = decide (¬ stateAt st kv.1 = kv.2) := by
  by_cases hc : stateAt st kv.1 = kv.2
  · rw [slotActs, slotStep_req_match v st r kv hwf hreq hc]
    simp [hc]
  · cases v
    · rw [slotActs, slotStep_req_mismatch_apply st r kv hwf hreq hc]
      simp [hc]
    · rw [slotActs, slotStep_req_mismatch_verify st r kv hwf hreq hc]
      simp [hc]

/-- C1: the required native state checked by the transition pass is determined
solely by the slot kind: uniform buffers are checked for uniform read access
and storage buffers for shader read plus write access on the bound buffer;
uniform and storage texel buffers are checked for shader read, respectively
read plus write, access on the buffer underlying the bound view; separate and
sampled images are checked for the shader read only layout and storage images
for the general layout on the texture underlying the bound view; atomic
counter and separate sampler slots are not checked and never act. -/
theorem c1_required_state_by_kind (v : Bool) (st : ResourceStates) (b t : Nat)
    (o : BoundObject) :
    (slotActs v st { ResType := .UniformBuffer, pObject := .buffer b } =
      decide (st.bufferAccess b ≠ VK_ACCESS_UNIFORM_READ_BIT)) ∧
    (slotActs v st { ResType := .StorageBuffer, pObject := .buffer b } =
      decide (st.bufferAccess b ≠ (VK_ACCESS_SHADER_READ_BIT ||| VK_ACCESS_SHADER_WRITE_BIT))) ∧
    (slotActs v st { ResType := .UniformTexelBuffer, pObject := .bufferView b } =
      decide (st.bufferAccess b ≠ VK_ACCESS_SHADER_READ_BIT)) ∧
    (slotActs v st { ResType := .StorageTexelBuffer, pObject := .bufferView b } =
      decide (st.bufferAccess b ≠ (VK_ACCESS_SHADER_READ_BIT ||| VK_ACCESS_SHADER_WRITE_BIT))) ∧
    (slotActs v st { ResType := .SeparateImage, pObject := .textureView t } =
      decide (st.textureLayout t ≠ VK_IMAGE_LAYOUT_SHADER_READ_ONLY_OPTIMAL)) ∧
    (slotActs v st { ResType := .SampledImage, pObject := .textureView t } =
      decide (st.textureLayout t ≠ VK_IMAGE_LAYOUT_SHADER_READ_ONLY_OPTIMAL)) ∧
    (slotActs v st { ResType := .StorageImage, pObject := .textureView t } =
      decide (st.textureLayout t ≠ VK_IMAGE_LAYOUT_GENERAL)) ∧
    (slotStep v st { ResType := .AtomicCounter, pObject := o } = .ok { states := st }) ∧
    (slotStep v st { ResType := .SeparateSampler, pObject := o } = .ok { states := st }) := by
  refine ⟨?_, ?_, ?_, ?_, ?_, ?_, ?_, rfl, rfl⟩
  · rw [slotActs_req v st { ResType := .UniformBuffer, pObject := .buffer b }
      (Sum.inl b, VK_ACCESS_UNIFORM_READ_BIT) rfl rfl]
    simp [stateAt]
  · rw [slotActs_req v st { ResType := .StorageBuffer, pObject := .buffer b }
      (Sum.inl b, VK_ACCESS_SHADER_READ_BIT ||| VK_ACCESS_SHADER_WRITE_BIT) rfl rfl]
    simp [stateAt]
  · rw [slotActs_req v st { ResType := .UniformTexelBuffer, pObject := .bufferView b }
      (Sum.inl b, VK_ACCESS_SHADER_READ_BIT) rfl rfl]
    simp [stateAt]
  · rw [slotActs_req v st { ResType := .StorageTexelBuffer, pObject := .bufferView b }
      (Sum.inl b, VK_ACCESS_SHADER_READ_BIT ||| VK_ACCESS_SHADER_WRITE_BIT) rfl rfl]
    simp [stateAt]
  · rw [slotActs_req v st { ResType := .SeparateImage, pObject := .textureView t }
      (Sum.inr t, VK_IMAGE_LAYOUT_SHADER_READ_ONLY_OPTIMAL) rfl rfl]
    simp [stateAt]
  · rw [slotActs_req v st { ResType := .SampledImage, pObject := .textureView t }
      (Sum.inr t, VK_IMAGE_LAYOUT_SHADER_READ_ONLY_OPTIMAL) rfl rfl]
    simp [stateAt]
  · rw [slotActs_req v st { ResType := .StorageImage, pObject := .textureView t }
      (Sum.inr t, VK_IMAGE_LAYOUT_GENERAL) rfl rfl]
    simp [stateAt]

/-- C2 counterexample: with the same buffer bound in two uniform buffer slots
and out of its required state, the verify pass reports a mismatch at slots 0
and 1 while the apply pass, from the identical state, records a request only
at slot 0 (its first request already brings the shared buffer into the
required state), so the two modes do not agree slot by slot. -/
theorem c2_counterexample_alias :
    Except.map (fun p => p.diags.map Prod.fst)
      (TransitionResources true stZero slotsSameBuffer) = .ok [0, 1] ∧
    Except.map (fun p => p.cmds.map Prod.fst)
      (TransitionResources false stZero slotsSameBuffer) = .ok [0] :=
  ⟨rfl, rfl⟩

/-- C2 (amended): when no two slots reference the same underlying buffer or
texture, verify and apply agree slot by slot: from an identical cache and
resource state, verify reports a mismatch at exactly the slot indices at which
apply records a barrier or layout transition request. -/
theorem c2_amended_verify_apply_agree (st : ResourceStates) (slots : List Resource)
    (hwf : ∀ r ∈ slots, wellFormed r = true)
    (hnd : (slots.filterMap slotKey).Nodup) :
    ∃ pv pa, TransitionResources true st slots = .ok pv ∧
             TransitionResources false st slots = .ok pa ∧
             pv.diags.map Prod.fst = pa.cmds.map Prod.fst :=
  transitionLoop_verify_apply slots st 0 hwf hnd

/-- Witness for the amended C2 at a concrete two slot cache. -/
theorem c2_amended_witness :
    ∃ pv pa, TransitionResources true stZero
        [{ ResType := .UniformBuffer, pObject := .buffer 0 },
         { ResType := .SampledImage, pObject := .textureView 3 }] = .ok pv ∧
      TransitionResources false stZero
        [{ ResType := .UniformBuffer, pObject := .buffer 0 },
         { ResType := .SampledImage, pObject := .textureView 3 }] = .ok pa ∧
      pv.diags.map Prod.fst = pa.cmds.map Prod.fst :=
  c2_amended_verify_apply_agree stZero
    [{ ResType := .UniformBuffer, pObject := .buffer 0 },
     { ResType := .SampledImage, pObject := .textureView 3 }] (by decide) (by decide)

/-- C4: the verify pass never changes any resource state and never records a
command; its whole effect is the list of diagnostics. -/
theorem c4_verify_pure (st : ResourceStates) (slots : List Resource) :
    TransitionResources true st slots =
      Except.map (fun p => { states := st, cmds := [], diags := p.diags })
        (TransitionResources true st slots) := by
  cases h : TransitionResources true st slots with
  | error e => rfl
  | ok p =>
    obtain ⟨h1, h2⟩ := transitionLoop_verify slots st 0 p h
    obtain ⟨pst, pc, pd⟩ := p
    simp only [Except.map]
    simp only at h1 h2
    rw [h1, h2]

/-- C8: the pass performs its state inspection with no guard for an empty
binding; when every buffer, texel buffer and image slot holds a binding of the
kind its branch dereferences the whole pass is well defined, and an empty
binding at such a slot makes the pass hit the undefined null dereference. -/
theorem c8_precondition_no_guard (v : Bool) (st : ResourceStates)
    (slots : List Resource) (h : ∀ r ∈ slots, wellFormed r = true) :
    (TransitionResources v st slots).isOk = true ∧
    TransitionResources v st
        ({ ResType := .UniformBuffer, pObject := .empty } :: slots) =
      .error .nullDereference := by
  constructor
  · obtain ⟨p, hp⟩ := transitionLoop_ok v slots st 0 h
    rw [TransitionResources, hp]
    rfl
  · rfl

/-- Witness for C8 at a concrete one slot cache. -/
theorem c8_witness :
    (TransitionResources true stZero
        [{ ResType := .UniformBuffer, pObject := .buffer 0 }]).isOk = true ∧
    TransitionResources true stZero
        ({ ResType := .UniformBuffer, pObject := .empty } ::
          [{ ResType := .UniformBuffer, pObject := .buffer 0 }]) =
      .error .nullDereference :=
  c8_precondition_no_guard true stZero
    [{ ResType := .UniformBuffer, pObject := .buffer 0 }] (by decide)

/-- C9: when some slot carries an unclassified kind tag and every slot binding
matches its kind, the pass aborts with the unexpected resource kind condition
rather than silently skipping the slot. -/
theorem c9_unexpected_kind_fatal (v : Bool) (st : ResourceStates)
    (slots : List Resource) (hb : ∀ r ∈ slots, boundOk r = true)
    (hu : ∃ r, r ∈ slots ∧ classified r.ResType = false) :
    TransitionResources v st slots = .error .unexpectedResourceKind :=
  transitionLoop_unexpected slots v st 0 hb hu

/-- Witness for C9 at a concrete two slot cache. -/
theorem c9_witness :
    TransitionResources true stZero
      [{ ResType := .UniformBuffer, pObject := .buffer 0 },
       { ResType := .NumResourceTypes, pObject := .empty }] =
    .error .unexpectedResourceKind :=
  c9_unexpected_kind_fatal true stZero
    [{ ResType := .UniformBuffer, pObject := .buffer 0 },
     { ResType := .NumResourceTypes, pObject := .empty }]
    (by decide)
    ⟨{ ResType := .NumResourceTypes, pObject := .empty }, by decide, by decide⟩

/-- C10 counterexample: with the same buffer bound as a uniform buffer in slot
0 and as a storage buffer in slot 1, the two required states conflict, and a
second apply pass run right after a first one still records requests at slots
0 and 1 instead of zero. -/
theorem c10_counterexample_conflicting_alias :
    Except.map (fun q => q.cmds.map Prod.fst)
      (Except.bind (TransitionResources false stZero slotsConflicting)
        (fun p => TransitionResources false p.states slotsConflicting)) = .ok [0, 1] :=
  rfl

/-- C10 (amended): when no two slots require different states of the same
underlying resource, apply mode is idempotent: a first apply pass succeeds,
and a second apply pass from the states it leaves behind records zero barrier
and zero layout transition requests and changes nothing. -/
theorem c10_amended_idempotent (st : ResourceStates) (slots : List Resource)
    (hwf : ∀ r ∈ slots, wellFormed r = true)
    (hcomp : ∀ r₁ ∈ slots, ∀ r₂ ∈ slots, reqCompatible r₁ r₂ = true) :
    ∃ p, TransitionResources false st slots = .ok p ∧
         TransitionResources false p.states slots = .ok { states := p.states } := by
  obtain ⟨p, hp⟩ := transitionLoop_ok false slots st 0 hwf
  exact ⟨p, hp, transitionLoop_noActions slots p.states 0 hwf
    (fun r hr kv hkv => transitionLoop_satisfies slots st 0 hwf hcomp p hp r hr kv hkv)⟩

/-- Witness for the amended C10 at a concrete two slot cache. -/
theorem c10_amended_witness :
    ∃ p, TransitionResources false stZero
        [{ ResType := .UniformBuffer, pObject := .buffer 0 },
         { ResType := .StorageImage, pObject := .textureView 4 }] = .ok p ∧
      TransitionResources false p.states
        [{ ResType := .UniformBuffer, pObject := .buffer 0 },
         { ResType := .StorageImage, pObject := .textureView 4 }] =
        .ok { states := p.states } :=
  c10_amended_idempotent stZero
    [{ ResType := .UniformBuffer, pObject := .buffer 0 },
     { ResType := .StorageImage, pObject := .textureView 4 }] (by decide) (by decide)

/-- Witness for C3 at a concrete size list. -/
theorem c3_witness :
    ((ShaderResourceCacheVk.InitializeSets emptyCache 5 [2, 0, 3]).1.m_TotalResources = 5) ∧
    (((ShaderResourceCacheVk.InitializeSets emptyCache 5 [2, 0, 3]).1.sets.getD 0
        ⟨0, none⟩).m_NumResources = 2) :=
  ⟨(c3_layout_invariants 5 [2, 0, 3]).2.1,
   ((c3_layout_invariants 5 [2, 0, 3]).2.2.2.2.1 0 (by decide)).1⟩

/-- Witness for C7 at a concrete store. -/
theorem c7_witness :
    ((ShaderResourceCacheVk.InitializeSets emptyCache 1 [2]).1.InitializeResources
        0 0 2 .UniformBuffer).resources.getD 0 none =
      some { ResType := ResourceType.UniformBuffer, pObject := .empty } :=
  (c7_kinds_assigned_and_immutable 1 0 0 2 [2] .UniformBuffer (by decide)
    (by decide)).1 0 (by decide)
